import Mathlib

/-!
Verification of the ThinkingUI chat application (src/app.py).

The application streams a chat-model response, splitting it into a
"thinking" buffer and a "content" buffer, and keeps an append-only
conversation history in the Streamlit session state. We embed the
relevant functions shallowly: fragments become a structure with two
optional string deltas, the classifier becomes a fold over a list of
fragments, and the turn handler becomes an explicit state transition on
the message list. Definitions come first, theorems after.
-/

/-- One streamed part: `part.get("message", {})` yields a dict that may
carry a "thinking" delta and/or a "content" delta. A part lacking the
"message" key behaves like one whose message dict is empty, i.e. both
fields are `none`. -/
structure Fragment where
  thinking : Option String
  content : Option String
deriving DecidableEq, Repr

/-- The body of the classifier loop in `process_thinking_stream`:
`if "thinking" in message: thinking_content += message["thinking"]`
`elif "content" in message: response_content += message["content"]`. -/
def processStep (acc : String × String) (f : Fragment) : String × String :=
  match f.thinking with
  | some t => (acc.1 ++ t, acc.2)
  | none =>
    match f.content with
    | some c => (acc.1, acc.2 ++ c)
    | none => acc

/-- `process_thinking_stream` from src/app.py: fold the loop body over the
stream, starting from two empty accumulators, and return the final pair
(thinking_content, response_content). The `st.status` context manager is a
pure UI side effect and does not touch the accumulators. -/
def process_thinking_stream (stream : List Fragment) : String × String :=
  stream.foldl processStep ("", "")

/-- Spec-side reading of "concatenation of all reasoning-tagged deltas in
order": concatenate the `thinking` deltas present, left to right. -/
def reasoningDeltas : List Fragment → String
  | [] => ""
  | f :: fs => (f.thinking.getD "") ++ reasoningDeltas fs

/-- Spec-side reading of "concatenation of all content-tagged deltas in
order": concatenate the `content` deltas present, left to right. -/
def contentDeltas : List Fragment → String
  | [] => ""
  | f :: fs => (f.content.getD "") ++ contentDeltas fs

/-- A fragment is single-tagged when it does not carry both a thinking
delta and a content delta; the spec's fragment model ("tagged as either
reasoning or content") only produces such fragments. -/
def SingleTagged (f : Fragment) : Prop :=
  f.thinking = none ∨ f.content = none

instance (f : Fragment) : Decidable (SingleTagged f) := by
  unfold SingleTagged; infer_instance

/-- A fragment is tagged when it carries a thinking delta or a content
delta; untagged fragments hit neither branch of the if/elif. -/
def taggedFragment (f : Fragment) : Bool :=
  f.thinking.isSome || f.content.isSome

/-- Message roles stored in st.session_state["messages"]. -/
inductive Role where
  | system
  | user
  | assistant
deriving DecidableEq, Repr

/-- A stored chat message: a dict with "role", "content", and (on
assistant messages) a "thinking" key; absence of the key is `none`. -/
structure Message where
  role : Role
  content : String
  thinking : Option String := none
deriving DecidableEq, Repr

/-- The seed system message installed by the __main__ block on a fresh
session. -/
def systemMessage : Message :=
  { role := Role.system
    content := "You are a helpful AI assistant that explains your reasoning before answering." }

/-- Fresh session state: st.session_state["messages"] right after startup. -/
def initialStore : List Message := [systemMessage]

/-- The user message handle_user_input appends before streaming. -/
def userMsg (u : String) : Message := { role := Role.user, content := u }

/-- The assistant message handle_user_input appends after a completed
stream: the accumulated content plus the accumulated thinking text. -/
def assistantMsg (thinkingText contentText : String) : Message :=
  { role := Role.assistant, content := contentText, thinking := some thinkingText }

/-- Python-level failures that can surface during startup or a turn. -/
inductive PyError where
  | typeError      -- str + NoneType while building the Authorization header
  | authError      -- authentication failure from the hosted endpoint
  | transportError -- transport-level failure mid-stream
deriving DecidableEq, Repr

/-- What iterating one turn's stream does: either it is exhausted normally,
yielding its fragments, or it raises an error after emitting some of them. -/
inductive StreamResult where
  | done (frags : List Fragment)
  | failed (emitted : List Fragment) (e : PyError)
deriving DecidableEq, Repr

/-- Outcome of one call to handle_user_input: the history submitted to the
chat model, the resulting session store, and the surfaced error if any. -/
structure TurnResult where
  submitted : List Message
  store : List Message
  error : Option PyError
deriving DecidableEq, Repr

/-- handle_user_input from src/app.py. In source order: the user message is
appended to the store first, the full history (system message included) is
then submitted to the chat model, the stream is classified, and only after
a completed stream is the assistant message appended. A mid-stream
exception propagates out of the handler before the assistant append, so
the store keeps the user message and the partially accumulated text is
discarded. -/
def handle_user_input (store : List Message) (u : String) (res : StreamResult) :
    TurnResult :=
  match res with
  | StreamResult.done frags =>
    { submitted := store ++ [userMsg u]
      store := (store ++ [userMsg u]) ++
        [assistantMsg (process_thinking_stream frags).1 (process_thinking_stream frags).2]
      error := none }
  | StreamResult.failed _ e =>
    { submitted := store ++ [userMsg u]
      store := store ++ [userMsg u]
      error := some e }

/-- display_chat_history from src/app.py: the messages actually rendered,
in order — every stored message whose role is not "system". -/
def display_chat_history : List Message → List Message
  | [] => []
  | m :: rest =>
    if m.role ≠ Role.system then m :: display_chat_history rest
    else display_chat_history rest

/-- Building the client at import time: the header is
'Bearer ' + os.environ.get('OLLAMA_API_KEY'). When the variable is unset,
get returns None and the concatenation raises a TypeError before any turn
can run. -/
def bearerHeader (key : Option String) : Except PyError String :=
  match key with
  | none => Except.error PyError.typeError
  | some k => Except.ok ("Bearer " ++ k)

/-- Modelled from the spec: the hosted Ollama endpoint is not part of this
repository. Per the spec, a "missing/invalid credential ... manifests as an
authentication failure from the Transport Client"; we model the endpoint
as raising an authentication error when the bearer token is empty and
otherwise streaming the given fragments to exhaustion. -/
def transportStream (header : String) (frags : List Fragment) : StreamResult :=
  if header = "Bearer " then StreamResult.failed [] PyError.authError
  else StreamResult.done frags

/-- Either startup fails while constructing the client, or a turn runs. -/
inductive AppOutcome where
  | startupFailure (e : PyError)
  | turn (r : TurnResult)
deriving DecidableEq, Repr

/-- One submission end to end: construct the client from the environment
credential, then run handle_user_input against the transport's stream. -/
def runApp (key : Option String) (store : List Message) (u : String)
    (frags : List Fragment) : AppOutcome :=
  match bearerHeader key with
  | Except.error e => AppOutcome.startupFailure e
  | Except.ok h => AppOutcome.turn (handle_user_input store u (transportStream h frags))

/-- The store after a turn whose stream completes normally. -/
def successfulTurn (store : List Message) (u : String) (frags : List Fragment) :
    List Message :=
  (handle_user_input store u (StreamResult.done frags)).store

/-- Run a sequence of successfully completed turns, each given by the user
input and the fragments streamed back. -/
def runTurns (store : List Message) (turns : List (String × List Fragment)) :
    List Message :=
  turns.foldl (fun s t => successfulTurn s t.1 t.2) store

/-- The messages a list of completed turns appends to the store. -/
def turnMessages : List (String × List Fragment) → List Message
  | [] => []
  | (u, frags) :: ts =>
    userMsg u :: assistantMsg (process_thinking_stream frags).1
      (process_thinking_stream frags).2 :: turnMessages ts

/-- Strict user/assistant alternation starting with a user message. -/
inductive AltUA : List Message → Prop where
  | nil : AltUA []
  | cons (u a : Message) (rest : List Message) :
      u.role = Role.user → a.role = Role.assistant → AltUA rest →
      AltUA (u :: a :: rest)

/-- Session stores reachable from a fresh session by any sequence of
turns, completed or failed. -/
inductive Reachable : List Message → Prop where
  | init : Reachable initialStore
  | turn (s : List Message) (u : String) (res : StreamResult) :
      Reachable s → Reachable (handle_user_input s u res).store

/-- Formal reading of claim C3: with the given credential, submitting a
turn reaches the transport and fails with an authentication error (i.e. a
turn outcome, not a startup failure). -/
def credentialAuthClaim (key : Option String) : Prop :=
  ∀ store u frags, ∃ r, runApp key store u frags = AppOutcome.turn r ∧
    r.error = some PyError.authError

theorem foldl_processStep_eq (F : List Fragment)
    (h : ∀ f ∈ F, SingleTagged f) (r a : String) :
    F.foldl processStep (r, a) = (r ++ reasoningDeltas F, a ++ contentDeltas F) := by
  induction F generalizing r a with
  | nil => simp [reasoningDeltas, contentDeltas, String.append_empty]
  | cons f fs ih =>
    have hf : SingleTagged f := h f (List.mem_cons_self f fs)
    have hfs : ∀ g ∈ fs, SingleTagged g := fun g hg => h g (List.mem_cons_of_mem f hg)
    match ht : f.thinking, hc : f.content with
    | some t, _ =>
      rcases hf with hf | hf
      · rw [ht] at hf; exact absurd hf (by simp)
      · simp only [List.foldl_cons, processStep, ht, ih hfs, reasoningDeltas,
          contentDeltas, hf, Option.getD_some, Option.getD_none, String.empty_append]
        rw [String.append_assoc]
    | none, some c =>
      simp only [List.foldl_cons, processStep, ht, hc, ih hfs, reasoningDeltas,
        contentDeltas, Option.getD_some, Option.getD_none, String.empty_append]
      rw [String.append_assoc]
    | none, none =>
      simp only [List.foldl_cons, processStep, ht, hc, ih hfs, reasoningDeltas,
        contentDeltas, Option.getD_none, String.empty_append]

/-- Claim C1: for every finite sequence of fragments, each carrying at most
one of the two tags, `process_thinking_stream` returns the pair of the
in-order concatenation of the thinking deltas and the in-order
concatenation of the content deltas, regardless of interleaving. -/
theorem process_thinking_stream_concat (F : List Fragment)
    (h : ∀ f ∈ F, SingleTagged f) :
    process_thinking_stream F = (reasoningDeltas F, contentDeltas F) := by
  unfold process_thinking_stream
  rw [foldl_processStep_eq F h]
  rfl

/-- Witness for C1, on the spec's own scenario: fragments
`[{thinking:"Let me "}, {thinking:"think."}, {content:"42"}]` classify to
("Let me think.", "42"). -/
theorem process_thinking_stream_concat_witness :
    process_thinking_stream
      [⟨some "Let me ", none⟩, ⟨some "think.", none⟩, ⟨none, some "42"⟩] =
      ("Let me think.", "42") := by
  rw [process_thinking_stream_concat
    [⟨some "Let me ", none⟩, ⟨some "think.", none⟩, ⟨none, some "42"⟩]
    (by decide)]
  decide

/-- Claim C7: classifying the empty fragment sequence yields two empty
strings. -/
theorem process_thinking_stream_nil : process_thinking_stream [] = ("", "") := rfl

/-- Claim C5: a fragment carrying both a thinking delta and a content delta
contributes its thinking delta to the reasoning accumulator and its content
delta is silently discarded — the if/elif branches are mutually exclusive. -/
theorem process_thinking_stream_both_tags (F : List Fragment) (f : Fragment)
    (t c : String) (h1 : f.thinking = some t) (h2 : f.content = some c) :
    process_thinking_stream (F ++ [f]) =
      ((process_thinking_stream F).1 ++ t, (process_thinking_stream F).2) := by
  unfold process_thinking_stream
  rw [List.foldl_append]
  simp [processStep, h1]

/-- Witness for C5: the single fragment `{thinking:"a", content:"b"}`
classifies to ("a", "") — the content delta "b" is dropped. -/
theorem process_thinking_stream_both_tags_witness :
    process_thinking_stream [⟨some "a", some "b"⟩] = ("a", "") :=
  (process_thinking_stream_both_tags [] ⟨some "a", some "b"⟩ "a" "b" rfl rfl).trans
    (by decide)

theorem foldl_processStep_filter (F : List Fragment) :
    ∀ acc, F.foldl processStep acc = (F.filter taggedFragment).foldl processStep acc := by
  induction F with
  | nil => intro acc; rfl
  | cons f fs ih =>
    intro acc
    match ht : f.thinking, hc : f.content with
    | some t, _ =>
      simp only [List.filter_cons, taggedFragment, ht, Option.isSome_some,
        Bool.true_or, if_pos, List.foldl_cons]
      exact ih _
    | none, some c =>
      simp only [List.filter_cons, taggedFragment, ht, hc, Option.isSome_some,
        Option.isSome_none, Bool.false_or, if_pos, List.foldl_cons]
      exact ih _
    | none, none =>
      have hstep : processStep acc f = acc := by simp [processStep, ht, hc]
      have hfn : taggedFragment f = false := by simp [taggedFragment, ht, hc]
      rw [List.foldl_cons, hstep, List.filter_cons, if_neg (by simp [hfn])]
      exact ih _

/-- Claim C6: fragments carrying neither tag are ignored — classifying a
sequence gives the same pair as classifying the sequence with all untagged
fragments removed. -/
theorem process_thinking_stream_ignores_untagged (F : List Fragment) :
    process_thinking_stream F = process_thinking_stream (F.filter taggedFragment) :=
  foldl_processStep_filter F ("", "")

/-- Claim C9: the store is append-only — for every turn, successful or
failed, the prior contents are an unchanged prefix of the new contents:
there is a suffix of appended messages and nothing is deleted, edited or
reordered. -/
theorem store_append_only (store : List Message) (u : String) (res : StreamResult) :
    ∃ t, (handle_user_input store u res).store = store ++ t := by
  cases res with
  | done frags =>
    refine ⟨[userMsg u, assistantMsg (process_thinking_stream frags).1
      (process_thinking_stream frags).2], ?_⟩
    simp [handle_user_input]
  | failed emitted e => exact ⟨[userMsg u], rfl⟩

/-- Counterexample to C2 as stated: over a fresh session, a turn whose
stream fails after emitting `[{content:"partial"}]` leaves the store with
one more entry (the user message) than before the turn began, so the store
is not unchanged. -/
theorem failed_turn_store_changed :
    (handle_user_input initialStore "hi"
      (StreamResult.failed [⟨none, some "partial"⟩] PyError.transportError)).store ≠
      initialStore := by
  decide

/-- Claim C2 (amended): a turn whose stream raises mid-stream surfaces the
failure and commits only the user message: the store afterwards is exactly
the prior contents followed by the user message — the partially
accumulated assistant text is discarded and no assistant entry is
committed. -/
theorem failed_turn_commits_only_user (store : List Message) (u : String)
    (emitted : List Fragment) (e : PyError) :
    (handle_user_input store u (StreamResult.failed emitted e)).error = some e ∧
    (handle_user_input store u (StreamResult.failed emitted e)).store =
      store ++ [userMsg u] :=
  ⟨rfl, rfl⟩

/-- Counterexample to C3 as stated: with the credential missing
(OLLAMA_API_KEY unset), building the client already raises a TypeError
at module load — 'Bearer ' + None — so no turn runs and no authentication
error from the transport is ever surfaced. -/
theorem missing_credential_no_auth_error : ¬ credentialAuthClaim none := by
  intro h
  obtain ⟨r, hr, -⟩ := h initialStore "hi" []
  simp [runApp, bearerHeader] at hr

/-- Claim C3 (amended): with an empty credential the turn fails with the
transport's authentication error and the store retains the prior history
plus the failed turn's user message, with no assistant entry; with the
credential missing entirely, startup fails with a TypeError before any
turn can be submitted. -/
theorem credential_failure_behavior (store : List Message) (u : String)
    (frags : List Fragment) :
    runApp (some "") store u frags = AppOutcome.turn
      { submitted := store ++ [userMsg u]
        store := store ++ [userMsg u]
        error := some PyError.authError } ∧
    runApp none store u frags = AppOutcome.startupFailure PyError.typeError := by
  constructor
  · simp [runApp, bearerHeader, transportStream, handle_user_input,
      String.append_empty]
  · rfl

/-- Claim C8: rendering skips exactly the system messages — the rendered
sequence is the store filtered to non-system roles — while the full store,
system message included, is submitted to the chat model with the current
turn's user message appended last. -/
theorem system_excluded_render_included_submit (store : List Message)
    (u : String) (res : StreamResult) :
    display_chat_history store = store.filter (fun m => !(m.role == Role.system)) ∧
    (handle_user_input store u res).submitted = store ++ [userMsg u] := by
  constructor
  · induction store with
    | nil => rfl
    | cons m rest ih =>
      by_cases hm : m.role = Role.system
      · simp [display_chat_history, List.filter_cons, hm, ih]
      · simp [display_chat_history, List.filter_cons, hm, ih]
  · cases res <;> rfl

theorem runTurns_eq (turns : List (String × List Fragment)) :
    ∀ s, runTurns s turns = s ++ turnMessages turns := by
  induction turns with
  | nil => intro s; simp [runTurns, turnMessages]
  | cons t ts ih =>
    intro s
    obtain ⟨u, frags⟩ := t
    have h1 : runTurns s ((u, frags) :: ts) =
        runTurns (successfulTurn s u frags) ts := rfl
    rw [h1, ih]
    simp [successfulTurn, handle_user_input, turnMessages, List.append_assoc]

theorem altUA_turnMessages (turns : List (String × List Fragment)) :
    AltUA (turnMessages turns) := by
  induction turns with
  | nil => exact AltUA.nil
  | cons t ts ih =>
    obtain ⟨u, frags⟩ := t
    exact AltUA.cons _ _ _ rfl rfl ih

theorem turnMessages_count_user (turns : List (String × List Fragment)) :
    (turnMessages turns).countP (fun m => m.role == Role.user) = turns.length := by
  induction turns with
  | nil => rfl
  | cons t ts ih =>
    obtain ⟨u, frags⟩ := t
    simp [turnMessages, List.countP_cons, userMsg, assistantMsg, ih]

theorem turnMessages_count_assistant (turns : List (String × List Fragment)) :
    (turnMessages turns).countP (fun m => m.role == Role.assistant) = turns.length := by
  induction turns with
  | nil => rfl
  | cons t ts ih =>
    obtain ⟨u, frags⟩ := t
    simp [turnMessages, List.countP_cons, userMsg, assistantMsg, ih]

theorem turnMessages_count_system (turns : List (String × List Fragment)) :
    (turnMessages turns).countP (fun m => m.role == Role.system) = 0 := by
  induction turns with
  | nil => rfl
  | cons t ts ih =>
    obtain ⟨u, frags⟩ := t
    simp [turnMessages, List.countP_cons, userMsg, assistantMsg, ih]

/-- Claim C4: after any sequence of successfully completed turns from a
fresh session, the store is the single leading system message followed by
a strictly alternating user/assistant tail containing exactly one user
message and one assistant message per turn and no further system message. -/
theorem completed_turns_shape (turns : List (String × List Fragment)) :
    ∃ rest, runTurns initialStore turns = systemMessage :: rest ∧
      AltUA rest ∧
      rest.countP (fun m => m.role == Role.user) = turns.length ∧
      rest.countP (fun m => m.role == Role.assistant) = turns.length ∧
      rest.countP (fun m => m.role == Role.system) = 0 := by
  refine ⟨turnMessages turns, ?_, altUA_turnMessages turns,
    turnMessages_count_user turns, turnMessages_count_assistant turns,
    turnMessages_count_system turns⟩
  rw [runTurns_eq]
  rfl

/-- Claim C10: in every reachable session store, a populated thinking
field occurs only on assistant messages — system and user messages never
carry one. -/
theorem thinking_only_on_assistant (s : List Message) (hs : Reachable s) :
    ∀ m ∈ s, m.thinking.isSome → m.role = Role.assistant := by
  induction hs with
  | init =>
    intro m hm ht
    rw [initialStore, List.mem_singleton] at hm
    subst hm
    simp [systemMessage] at ht
  | turn s u res hsr ih =>
    intro m hm ht
    cases res with
    | done frags =>
      simp only [handle_user_input] at hm
      rcases List.mem_append.mp hm with hm1 | hm1
      · rcases List.mem_append.mp hm1 with hm2 | hm2
        · exact ih m hm2 ht
        · rw [List.mem_singleton] at hm2
          subst hm2
          simp [userMsg] at ht
      · rw [List.mem_singleton] at hm1
        subst hm1
        rfl
    | failed emitted e =>
      simp only [handle_user_input] at hm
      rcases List.mem_append.mp hm with hm1 | hm1
      · exact ih m hm1 ht
      · rw [List.mem_singleton] at hm1
        subst hm1
        simp [userMsg] at ht

/-- Witness for C10: after one completed turn from a fresh session, the
committed assistant message carries a populated thinking field and its
role is assistant. -/
theorem thinking_only_on_assistant_witness :
    (assistantMsg "t" "42").role = Role.assistant :=
  thinking_only_on_assistant
    (handle_user_input initialStore "hi"
      (StreamResult.done [⟨some "t", none⟩, ⟨none, some "42"⟩])).store
    (Reachable.turn initialStore "hi"
      (StreamResult.done [⟨some "t", none⟩, ⟨none, some "42"⟩]) Reachable.init)
    (assistantMsg "t" "42") (by decide) (by decide)
